import Mathlib

/-
Verification of the analytics and goal-scoring layer of the Priz finance
tracker.

The embedding below translates the pure computation functions of the
repository into Lean:

* src/services/analytics/calculations.ts : totals, category breakdown,
  monthly totals, income-vs-expenses window, percentage change and
  month-over-month change.
* the goals hook (calculateProgress, generateInsights,
  calculateOverallScore, mapExpenseToGoalCategory).
* the categories hook (unified category views and lookup) together with
  the static category catalog from the constants module.

Modelling conventions:

* JavaScript numbers are modelled as rationals.  Monetary amounts are
  integer cents in practice but the code treats them as plain numbers.
  Decimal literals of the source (0.8, 0.9, 1.1, 0.7) are modelled as the
  exact rationals they denote.
* Math.round is floor (x + 1/2), which matches its ties-toward-positive
  behaviour.
* Dates: every embedded function reads only the calendar year and the
  zero-based month index of a record date (getYear, getMonth,
  startOfMonth / endOfMonth filters, and the YYYY-MM grouping keys all
  depend only on that pair), so a date is modelled as a year plus a month
  index.  The JavaScript constructor new Date(year, month, 1) normalises
  an out-of-range month index into the adjacent years; addMonths models
  that normalisation with euclidean division.
* A JavaScript Map iterates in insertion order and Map.set on an existing
  key updates the value in place.  The grouping maps are therefore
  modelled as association lists with an in-place upsert.
* Array.prototype.sort with a numeric comparator cmp is modelled as a
  stable merge sort by the relation cmp a b <= 0.
* Record fields that the embedded functions never read (ids, userId,
  descriptions, timestamps, tags, isRecurring and so on) are omitted from
  the record structures.
-/

namespace Priz

/-- Calendar month of a record date: year and zero-based month index
(JavaScript Date months run from 0 = January to 11 = December). -/
structure MonthDate where
  year : Int
  month : Fin 12
deriving DecidableEq

/-- Total order on months used to state chronology: months elapsed. -/
def monthIndex (d : MonthDate) : Int := d.year * 12 + (d.month : Int)

/-- JavaScript new Date(year, month + k, 1) month normalisation: the raw
month count is re-split into a year and a month index in 0..11. -/
def addMonths (d : MonthDate) (k : Int) : MonthDate :=
  let t : Int := d.year * 12 + (d.month : Int) + k
  ⟨t / 12, ⟨(t % 12).toNat, by omega⟩⟩

/-- Expense record, restricted to the fields the analytics layer reads. -/
structure Expense where
  category : String
  amount : ℚ
  date : MonthDate
deriving DecidableEq

/-- Income record, restricted to the fields the analytics layer reads. -/
structure Income where
  amount : ℚ
  date : MonthDate
deriving DecidableEq

/-- Source: calculateTotalExpenses, a reduce over the amounts from 0. -/
def calculateTotalExpenses (expenses : List Expense) : ℚ :=
  expenses.foldl (fun sum expense => sum + expense.amount) 0

/-- Source: calculateTotalIncome, a reduce over the amounts from 0. -/
def calculateTotalIncome (income : List Income) : ℚ :=
  income.foldl (fun sum inc => sum + inc.amount) 0

/-- Result row of calculateCategoryBreakdown. -/
structure CategoryBreakdown where
  category : String
  amount : ℚ
  percentage : ℚ
  count : Nat
deriving DecidableEq

/-- Map.set based accumulation step: if the key is present its amount is
increased and its count incremented in place, otherwise a fresh entry is
appended at the end (JavaScript Map insertion order). -/
def upsertGroup {κ : Type} [DecidableEq κ] (k : κ) (a : ℚ) :
    List (κ × ℚ × Nat) → List (κ × ℚ × Nat)
  | [] => [(k, a, 1)]
  | e :: rest =>
      if e.1 = k then (e.1, e.2.1 + a, e.2.2 + 1) :: rest
      else e :: upsertGroup k a rest

/-- The forEach loop over the expenses that fills the grouping Map, for a
given grouping key (category, or calendar month). -/
def groupExpensesBy {κ : Type} [DecidableEq κ] (key : Expense → κ)
    (expenses : List Expense) : List (κ × ℚ × Nat) :=
  expenses.foldl (fun m e => upsertGroup (key e) e.amount m) []

/-- Lookup in the grouping association list (Map.get of the source);
used only to state and prove properties of the grouping. -/
def lookupGroup {κ : Type} [DecidableEq κ] (k : κ) :
    List (κ × ℚ × Nat) → Option (ℚ × Nat)
  | [] => none
  | e :: rest => if e.1 = k then some e.2 else lookupGroup k rest

/-- Source: calculateCategoryBreakdown.  Returns [] when the total is 0,
otherwise groups by category, computes percentage = amount / total * 100
and sorts by amount descending (comparator (a, b) => b.amount - a.amount). -/
def calculateCategoryBreakdown (expenses : List Expense) : List CategoryBreakdown :=
  let total := calculateTotalExpenses expenses
  if total = 0 then []
  else
    ((groupExpensesBy (fun e => e.category) expenses).map
      (fun g => ⟨g.1, g.2.1, g.2.1 / total * 100, g.2.2⟩)).mergeSort
      (fun a b => b.amount ≤ a.amount)

/-- Month labels produced by date-fns format MMM in the default locale. -/
def MONTHS_SHORT : List String :=
  ["Jan", "Feb", "Mar", "Apr", "May", "Jun",
   "Jul", "Aug", "Sep", "Oct", "Nov", "Dec"]

/-- Label of a month index, as produced by format(date, 'MMM'). -/
def monthName (m : Fin 12) : String :=
  MONTHS_SHORT.get ⟨m.val, m.isLt⟩

/-- Result row of calculateMonthlyTotals. -/
structure MonthlyTotal where
  month : String
  year : Int
  total : ℚ
  count : Nat
deriving DecidableEq

/-- Comparator of calculateMonthlyTotals, as a boolean order: the source
comparator returns a.year - b.year when the years differ and otherwise
months.indexOf(a.month) - months.indexOf(b.month); sorting ascending by a
numeric comparator means ordering by comparator at most 0.  (For the
labels the function itself produces, List.indexOf agrees with the
JavaScript indexOf; the two differ only on strings outside the table.) -/
def monthlyTotalLE (a b : MonthlyTotal) : Bool :=
  if a.year = b.year then
    MONTHS_SHORT.indexOf a.month ≤ MONTHS_SHORT.indexOf b.month
  else a.year ≤ b.year

/-- Source: calculateMonthlyTotals.  Groups all records by the
year-and-month key, labels each group with the formatted month name, and
sorts with the (year, month-index) comparator. -/
def calculateMonthlyTotals (expenses : List Expense) : List MonthlyTotal :=
  ((groupExpensesBy (fun e => (e.date.year, e.date.month)) expenses).map
    (fun g => ⟨monthName g.1.2, g.1.1, g.2.1, g.2.2⟩)).mergeSort monthlyTotalLE

/-- Result row of calculateIncomeVsExpenses. -/
structure IncomeVsExpense where
  period : String
  income : ℚ
  expenses : ℚ
  net : ℚ
  savingsRate : ℚ
deriving DecidableEq

/-- Period label, as produced by format(date, 'MMM yyyy'). -/
def formatMonthYear (d : MonthDate) : String :=
  monthName d.month ++ " " ++ toString d.year

/-- Row of the income-vs-expenses table for one window month: the Map of
the source is zero-initialised for the window keys and each record whose
key lies in the window adds its amount, which is the same as summing the
records of that month. -/
def ivEntry (income : List Income) (expenses : List Expense)
    (k : MonthDate) : IncomeVsExpense :=
  let inc := (income.filter (fun r => r.date = k)).foldl
    (fun s r => s + r.amount) 0
  let exp := (expenses.filter (fun e => e.date = k)).foldl
    (fun s e => s + e.amount) 0
  let net := inc - exp
  ⟨formatMonthYear k, inc, exp, net, if inc > 0 then net / inc * 100 else 0⟩

/-- Source: calculateIncomeVsExpenses.  The source reads the clock with
new Date() inside the function body; that ambient instant is made an
explicit argument here.  The window is built by the loop
for (i = 5; i >= 0; i--) pushing the six keys now-5 .. now-0 in order. -/
def calculateIncomeVsExpenses (now : MonthDate) (income : List Income)
    (expenses : List Expense) : List IncomeVsExpense :=
  ((List.range 6).map (fun j : Nat => addMonths now ((j : Int) - 5))).map
    (ivEntry income expenses)

/-- Source: calculatePercentageChange, with the explicit zero-previous
policy. -/
def calculatePercentageChange (current previous : ℚ) : ℚ :=
  if previous = 0 then (if current > 0 then 100 else 0)
  else (current - previous) / previous * 100

/-- Source: calculateMoMChange.  The source reads the clock with
new Date() inside the function body; that ambient instant is made an
explicit argument here.  The startOfMonth / endOfMonth range filters keep
exactly the records of the given calendar month. -/
def calculateMoMChange (now : MonthDate) (expenses : List Expense) : ℚ :=
  let currentTotal := calculateTotalExpenses
    (expenses.filter (fun e => e.date = now))
  let lastTotal := calculateTotalExpenses
    (expenses.filter (fun e => e.date = addMonths now (-1)))
  calculatePercentageChange currentTotal lastTotal

/-- Goal bucket enumeration from the types module. -/
inductive GoalCategory
  | savings
  | investments
  | needs
  | wants
  | debt_repayment
  | emergency_fund
deriving DecidableEq

/-- Progress status enumeration from the types module. -/
inductive GoalStatus
  | on_track
  | behind
  | ahead
deriving DecidableEq

/-- Goal allocation record from the types module. -/
structure GoalAllocation where
  category : GoalCategory
  targetPercentage : ℚ
  color : String
  icon : String
  name : String
  description : String
deriving DecidableEq

/-- Goal progress record from the types module. -/
structure GoalProgress where
  category : GoalCategory
  targetPercentage : ℚ
  actualPercentage : ℚ
  targetAmount : ℚ
  actualAmount : ℚ
  difference : ℚ
  status : GoalStatus
deriving DecidableEq

/-- Classification table of mapExpenseToGoalCategory: needs side. -/
def needsCategories : List String :=
  ["rent", "electricity", "gas", "wifi", "groceries"]

/-- Classification table of mapExpenseToGoalCategory: wants side. -/
def wantsCategories : List String :=
  ["amazon", "eating_out", "miscellaneous"]

/-- Source: mapExpenseToGoalCategory, with the explicit default of wants
for any category outside the two lists. -/
def mapExpenseToGoalCategory (expenseCategory : String) : GoalCategory :=
  if needsCategories.contains expenseCategory then .needs
  else if wantsCategories.contains expenseCategory then .wants
  else .wants

/-- The actualByCategory record of calculateProgress after the forEach
over the expenses: starting from all-zero, each expense adds its amount
to its mapped bucket. -/
def actualsFromExpenses (expenses : List Expense) : GoalCategory → ℚ :=
  expenses.foldl
    (fun acc e => fun g =>
      if g = mapExpenseToGoalCategory e.category then acc g + e.amount
      else acc g)
    (fun _ => 0)

/-- Source: calculateProgress.  After the expense loop the savings bucket
is overwritten with the residual max(0, totalIncome - totalExpenses); the
per-allocation rows are then computed with the two status policies. -/
def calculateProgress (allocations : List GoalAllocation) (totalIncome : ℚ)
    (expenses : List Expense) (income : List Income) : List GoalProgress :=
  let actualBase := actualsFromExpenses expenses
  let totalExpenses := expenses.foldl (fun sum e => sum + e.amount) 0
  let netSavings := max 0 (totalIncome - totalExpenses)
  let actualByCategory : GoalCategory → ℚ :=
    fun g => if g = .savings then netSavings else actualBase g
  allocations.map (fun alloc =>
    let targetAmount := totalIncome * alloc.targetPercentage / 100
    let actualAmount := actualByCategory alloc.category
    let actualPercentage :=
      if totalIncome > 0 then actualAmount / totalIncome * 100 else 0
    let difference := actualAmount - targetAmount
    let status : GoalStatus :=
      if alloc.category = .needs ∨ alloc.category = .wants then
        let s : GoalStatus :=
          if actualAmount ≤ targetAmount then .on_track else .behind
        if actualAmount < targetAmount * 0.8 then .ahead else s
      else
        let s : GoalStatus :=
          if actualAmount ≥ targetAmount * 0.9 then .on_track else .behind
        if actualAmount ≥ targetAmount * 1.1 then .ahead else s
    ⟨alloc.category, alloc.targetPercentage, actualPercentage,
      targetAmount, actualAmount, difference, status⟩)

/-- Display configuration of one goal bucket (GOAL_CATEGORIES constant,
without the targetPercentage field). -/
structure GoalCategoryInfo where
  category : GoalCategory
  name : String
  icon : String
  color : String
  description : String
deriving DecidableEq

/-- GOAL_CATEGORIES constant from the constants module. -/
def GOAL_CATEGORIES : GoalCategory → GoalCategoryInfo
  | .savings =>
      ⟨.savings, "Savings", "PiggyBank", "#22C55E",
        "Money set aside for future use"⟩
  | .investments =>
      ⟨.investments, "Investments", "TrendingUp", "#8B5CF6",
        "Stocks, mutual funds, crypto, etc."⟩
  | .needs =>
      ⟨.needs, "Needs", "Home", "#3B82F6",
        "Essential expenses (rent, utilities, groceries)"⟩
  | .wants =>
      ⟨.wants, "Wants", "ShoppingBag", "#F97316",
        "Non-essential lifestyle expenses"⟩
  | .debt_repayment =>
      ⟨.debt_repayment, "Debt Repayment", "CreditCard", "#EF4444",
        "Paying off loans, credit cards"⟩
  | .emergency_fund =>
      ⟨.emergency_fund, "Emergency Fund", "Shield", "#14B8A6",
        "Safety net for unexpected expenses"⟩

/-- Insight type enumeration from the types module. -/
inductive InsightType
  | warning
  | success
  | tip
deriving DecidableEq

/-- Insight record from the types module; optional fields are Options. -/
structure GoalInsight where
  type : InsightType
  category : Option GoalCategory
  message : String
  action : Option String
deriving DecidableEq

/-- JavaScript toFixed(0): nearest integer, ties away from zero through
the sign split of the specification (negative inputs format the negated
value behind a minus sign). -/
def toFixed0 (x : ℚ) : String :=
  if x < 0 then "-" ++ toString ⌊-x + 1/2⌋ else toString ⌊x + 1/2⌋

/-- JavaScript toFixed(1) for a non-negative value. -/
def toFixed1Nonneg (x : ℚ) : String :=
  let n : Int := ⌊x * 10 + 1/2⌋
  toString (n / 10) ++ "." ++ toString (n % 10)

/-- JavaScript toFixed(1), with the sign split of the specification. -/
def toFixed1 (x : ℚ) : String :=
  if x < 0 then "-" ++ toFixed1Nonneg (-x) else toFixed1Nonneg x

/-- JavaScript String.prototype.toLowerCase on the ASCII names used by
the insight messages. -/
def jsToLower (s : String) : String := String.map Char.toLower s

/-- Source: generateInsights.  Per-entry warnings and successes are
pushed in list order, then the aggregate message: a success when every
category is non-behind, otherwise a tip when at least 70 percent are. -/
def generateInsights (progress : List GoalProgress) : List GoalInsight :=
  let insights := progress.foldl
    (fun acc p =>
      let categoryConfig := GOAL_CATEGORIES p.category
      if p.status = .behind then
        if p.category = .needs ∨ p.category = .wants then
          acc ++ [⟨.warning, some p.category,
            "You\x27re overspending on " ++ categoryConfig.name ++ " by " ++
              toFixed0 |p.difference / 100|,
            some ("Try to reduce " ++ jsToLower categoryConfig.name ++
              " expenses")⟩]
        else
          acc ++ [⟨.warning, some p.category,
            categoryConfig.name ++ " is " ++
              toFixed1 |p.actualPercentage - p.targetPercentage| ++
              "% below target",
            some ("Consider allocating more to " ++
              jsToLower categoryConfig.name)⟩]
      else if p.status = .ahead then
        acc ++ [⟨.success, some p.category,
          "Great job! " ++ categoryConfig.name ++ " is on track", none⟩]
      else acc)
    []
  let onTrackCount := (progress.filter (fun p => p.status ≠ .behind)).length
  if onTrackCount = progress.length then
    insights ++ [⟨.success, none,
      "All your financial goals are on track! Keep it up!", none⟩]
  else if (onTrackCount : ℚ) ≥ (progress.length : ℚ) * 0.7 then
    insights ++ [⟨.tip, none,
      "You\x27re doing well overall. Small adjustments can help you reach all goals.",
      none⟩]
  else insights

/-- Math.round: floor of x + 1/2. -/
def jsRound (x : ℚ) : Int := ⌊x + 1/2⌋

/-- Per-category score of calculateOverallScore (the body of its loop). -/
def categoryScore (p : GoalProgress) : ℚ :=
  if p.category = .needs ∨ p.category = .wants then
    if p.actualPercentage ≤ p.targetPercentage then 100
    else max 0 (100 - (p.actualPercentage - p.targetPercentage) * 5)
  else
    let ratio :=
      if p.targetPercentage > 0 then p.actualPercentage / p.targetPercentage
      else 1
    min 100 (ratio * 100)

/-- Source: calculateOverallScore, with the explicit empty-input guard. -/
def calculateOverallScore (progress : List GoalProgress) : Int :=
  if progress.length = 0 then 0
  else jsRound
    ((progress.foldl (fun totalScore p => totalScore + categoryScore p) 0) /
      (progress.length : ℚ))

/-- Category type enumeration from the types module (the source value
written variable is spelled with a trailing tick because variable is a
Lean keyword). -/
inductive CategoryType
  | fixed
  | variable'
deriving DecidableEq

/-- Built-in category configuration record from the types module. -/
structure CategoryConfig where
  id : String
  name : String
  icon : String
  color : String
  type : CategoryType
  order : ℚ
deriving DecidableEq

/-- CATEGORIES constant from the constants module, in the object literal
order that Object.entries iterates. -/
def CATEGORIES : List CategoryConfig :=
  [⟨"rent", "Rent", "Home", "#3B82F6", .fixed, 1⟩,
   ⟨"electricity", "Electricity", "Zap", "#EAB308", .fixed, 2⟩,
   ⟨"gas", "Gas", "Flame", "#F97316", .fixed, 3⟩,
   ⟨"wifi", "WiFi", "Wifi", "#8B5CF6", .fixed, 4⟩,
   ⟨"groceries", "Groceries", "ShoppingCart", "#22C55E", .fixed, 5⟩,
   ⟨"amazon", "Amazon", "Package", "#FB923C", .variable', 6⟩,
   ⟨"eating_out", "Eating Out", "Utensils", "#EF4444", .variable', 7⟩,
   ⟨"fuel", "Fuel", "Fuel", "#0EA5E9", .variable', 8⟩,
   ⟨"subscriptions", "Subscriptions", "RefreshCw", "#A855F7", .fixed, 9⟩,
   ⟨"travel", "Travel", "Plane", "#06B6D4", .variable', 10⟩,
   ⟨"miscellaneous", "Miscellaneous", "CreditCard", "#6B7280", .variable', 11⟩]

/-- Unified category view record from the categories hook. -/
structure UnifiedCategory where
  id : String
  name : String
  icon : String
  color : String
  type : CategoryType
  order : ℚ
  isCustom : Bool
deriving DecidableEq

/-- Custom category record, restricted to the fields the categories hook
reads; a missing isDeleted flag of the stored record reads as false. -/
structure CustomCategory where
  id : String
  name : String
  icon : String
  color : String
  type : CategoryType
  order : ℚ
  isDeleted : Bool
deriving DecidableEq

/-- Conversion of the built-in catalog used by the categories hook. -/
def defaultCategoriesAsUnified : List UnifiedCategory :=
  CATEGORIES.map (fun config =>
    ⟨config.id, config.name, config.icon, config.color, config.type,
      config.order, false⟩)

/-- Conversion of one custom category used by both unified views. -/
def customAsUnified (cat : CustomCategory) : UnifiedCategory :=
  ⟨cat.id, cat.name, cat.icon, cat.color, cat.type, cat.order, true⟩

/-- Source: the allCategoriesIncludingDeleted memo of the categories
hook: defaults and all customs merged, sorted ascending by order (the
comparator (a, b) => a.order - b.order). -/
def allCategoriesIncludingDeleted
    (customCategories : List CustomCategory) : List UnifiedCategory :=
  (defaultCategoriesAsUnified ++ customCategories.map customAsUnified).mergeSort
    (fun a b => a.order ≤ b.order)

/-- Source: the activeCustomCategories memo (customs whose isDeleted flag
is not set). -/
def activeCustomCategories
    (customCategories : List CustomCategory) : List CustomCategory :=
  customCategories.filter (fun c => !c.isDeleted)

/-- Source: the allCategories memo of the categories hook: defaults and
active customs merged, sorted ascending by order. -/
def allCategories (customCategories : List CustomCategory) : List UnifiedCategory :=
  (defaultCategoriesAsUnified ++
    (activeCustomCategories customCategories).map customAsUnified).mergeSort
    (fun a b => a.order ≤ b.order)

/-- Source: getCategoryById, the find over the all-including-deleted
view. -/
def getCategoryById (customCategories : List CustomCategory)
    (id : String) : Option UnifiedCategory :=
  (allCategoriesIncludingDeleted customCategories).find? (fun c => c.id = id)

/-
Theorems.  General lemmas about the folds first, then one theorem per
specification claim (with a witness instance where the theorem carries
hypotheses).
-/

/-- Left fold of additions equals the sum of the mapped list. -/
theorem foldl_add_map {α : Type} (f : α → ℚ) (l : List α) (init : ℚ) :
    l.foldl (fun s x => s + f x) init = init + (l.map f).sum := by
  induction l generalizing init with
  | nil => simp
  | cons a t ih => simp [ih, add_assoc]

/-- The expense total is the sum of the amounts. -/
theorem calculateTotalExpenses_eq_sum (expenses : List Expense) :
    calculateTotalExpenses expenses = (expenses.map Expense.amount).sum := by
  simpa [calculateTotalExpenses] using
    foldl_add_map (fun e => e.amount) expenses 0

/-- The income total is the sum of the amounts. -/
theorem calculateTotalIncome_eq_sum (income : List Income) :
    calculateTotalIncome income = (income.map Income.amount).sum := by
  simpa [calculateTotalIncome] using
    foldl_add_map (fun i => i.amount) income 0

/-- The goal-category map only ever produces the two spending buckets. -/
theorem mapExpenseToGoalCategory_needs_or_wants (c : String) :
    mapExpenseToGoalCategory c = .needs ∨ mapExpenseToGoalCategory c = .wants := by
  unfold mapExpenseToGoalCategory
  split
  · exact Or.inl rfl
  · split
    · exact Or.inr rfl
    · exact Or.inr rfl

/-- The expense loop of calculateProgress never touches a bucket other
than needs and wants. -/
theorem actualsFromExpenses_apply_ne (expenses : List Expense)
    (acc : GoalCategory → ℚ) (g : GoalCategory)
    (h1 : g ≠ .needs) (h2 : g ≠ .wants) :
    expenses.foldl
      (fun acc e => fun g =>
        if g = mapExpenseToGoalCategory e.category then acc g + e.amount
        else acc g)
      acc g = acc g := by
  induction expenses generalizing acc with
  | nil => rfl
  | cons e t ih =>
      rw [List.foldl_cons, ih]
      rcases mapExpenseToGoalCategory_needs_or_wants e.category with h | h <;>
        simp [h, h1, h2]

/-- C10: generateInsights on an empty progress list returns exactly the
single aggregate celebratory success insight, because the
all-categories-non-behind condition holds vacuously for zero
categories. -/
theorem generateInsights_nil :
    generateInsights [] =
      [⟨.success, none,
        "All your financial goals are on track! Keep it up!", none⟩] := rfl

/-- C5: calculatePercentageChange returns 100 when previous is 0 and
current is positive, 0 when previous is 0 and current is not positive,
and the relative change otherwise; calculateMoMChange applies exactly
that policy to the totals of the current and immediately preceding
calendar month, as the three concrete cases illustrate. -/
theorem calculatePercentageChange_policy
    (current previous : ℚ) (now : MonthDate) (expenses : List Expense) :
    (previous = 0 → 0 < current →
      calculatePercentageChange current previous = 100) ∧
    (previous = 0 → ¬ 0 < current →
      calculatePercentageChange current previous = 0) ∧
    (previous ≠ 0 → calculatePercentageChange current previous =
      (current - previous) / previous * 100) ∧
    calculateMoMChange now expenses =
      calculatePercentageChange
        (calculateTotalExpenses (expenses.filter (fun e => e.date = now)))
        (calculateTotalExpenses
          (expenses.filter (fun e => e.date = addMonths now (-1)))) ∧
    calculateMoMChange ⟨2025, 5⟩ [⟨"rent", 500, ⟨2025, 5⟩⟩] = 100 ∧
    calculateMoMChange ⟨2025, 5⟩ [] = 0 ∧
    calculateMoMChange ⟨2025, 5⟩
      [⟨"rent", 1500, ⟨2025, 5⟩⟩, ⟨"rent", 1000, ⟨2025, 4⟩⟩] = 50 := by
  have hprev : addMonths ⟨2025, 5⟩ (-1) = (⟨2025, 4⟩ : MonthDate) := by decide
  refine ⟨?_, ?_, ?_, rfl, ?_, ?_, ?_⟩
  · intro h hc; simp [calculatePercentageChange, h, hc]
  · intro h hc; simp [calculatePercentageChange, h, hc]
  · intro h; simp [calculatePercentageChange, h]
  · simp [calculateMoMChange, hprev, calculateTotalExpenses,
      calculatePercentageChange]
  · simp [calculateMoMChange, hprev, calculateTotalExpenses,
      calculatePercentageChange]
  · simp [calculateMoMChange, hprev, calculateTotalExpenses,
      calculatePercentageChange]
    norm_num

/-- Witness for C5: the zero-previous positive-current case at the
concrete pair (500, 0). -/
theorem calculatePercentageChange_policy_witness :
    calculatePercentageChange 500 0 = 100 :=
  (calculatePercentageChange_policy 500 0 ⟨2025, 0⟩ []).1 rfl (by norm_num)

/-- C2: calculateOverallScore returns 0 on the empty list and otherwise
the rounded arithmetic mean of the per-category scores; a spend-down
entry scores 100 at or under target and otherwise the 5-per-point
penalty floored at 0 (so 20 points over scores 0), and any other entry
scores the capped ratio, taken as 1 when the target percentage is 0. -/
theorem calculateOverallScore_spec (progress : List GoalProgress) :
    calculateOverallScore [] = 0 ∧
    (progress ≠ [] → calculateOverallScore progress =
      jsRound ((progress.map categoryScore).sum / (progress.length : ℚ))) ∧
    (∀ p : GoalProgress, p.category = .needs ∨ p.category = .wants →
      categoryScore p =
        if p.actualPercentage ≤ p.targetPercentage then 100
        else max 0 (100 - 5 * (p.actualPercentage - p.targetPercentage))) ∧
    (∀ p : GoalProgress, p.category = .needs ∨ p.category = .wants →
      p.actualPercentage = p.targetPercentage + 20 → categoryScore p = 0) ∧
    (∀ p : GoalProgress, ¬ (p.category = .needs ∨ p.category = .wants) →
      p.targetPercentage = 0 → categoryScore p = 100) ∧
    (∀ p : GoalProgress, ¬ (p.category = .needs ∨ p.category = .wants) →
      0 < p.targetPercentage →
      categoryScore p = min 100 (p.actualPercentage / p.targetPercentage * 100)) := by
  refine ⟨rfl, ?_, ?_, ?_, ?_, ?_⟩
  · intro h
    have hl : progress.length ≠ 0 := by
      simpa [List.length_eq_zero] using h
    simp [calculateOverallScore, hl, jsRound,
      foldl_add_map categoryScore progress 0]
  · intro p hp
    by_cases hle : p.actualPercentage ≤ p.targetPercentage
    · simp [categoryScore, hp, hle]
    · simp [categoryScore, hp, hle]
      ring_nf
  · intro p hp h20
    have hle : ¬ p.actualPercentage ≤ p.targetPercentage := by
      rw [h20]; intro hc; linarith
    simp [categoryScore, hp, hle, h20]
    norm_num
  · intro p hp h0
    simp [categoryScore, hp, h0]
  · intro p hp hpos
    simp [categoryScore, hp, hpos]

/-- Witness for C2: the zero-target accumulation-bucket case scores
100. -/
theorem calculateOverallScore_spec_witness :
    categoryScore ⟨.savings, 0, 7, 0, 0, 0, .on_track⟩ = 100 :=
  (calculateOverallScore_spec []).2.2.2.2.1
    ⟨.savings, 0, 7, 0, 0, 0, .on_track⟩ (by decide) rfl

/-- C3: calculateProgress attributes the savings actual amount as the
residual max(0, totalIncome - totalExpenses), attributes 0 to the
investments, debt_repayment and emergency_fund buckets, and the
classification table sends exactly the five needs ids to needs, the
three wants ids to wants, and everything else to wants. -/
theorem calculateProgress_attribution
    (allocations : List GoalAllocation) (totalIncome : ℚ)
    (expenses : List Expense) (income : List Income) :
    (∀ p ∈ calculateProgress allocations totalIncome expenses income,
      (p.category = .savings →
        p.actualAmount = max 0 (totalIncome - calculateTotalExpenses expenses)) ∧
      (p.category = .investments ∨ p.category = .debt_repayment ∨
          p.category = .emergency_fund → p.actualAmount = 0)) ∧
    (∀ c : String, c ∉ needsCategories → c ∉ wantsCategories →
      mapExpenseToGoalCategory c = .wants) ∧
    (∀ c ∈ needsCategories, mapExpenseToGoalCategory c = .needs) ∧
    (∀ c ∈ wantsCategories, mapExpenseToGoalCategory c = .wants) ∧
    needsCategories = ["rent", "electricity", "gas", "wifi", "groceries"] ∧
    wantsCategories = ["amazon", "eating_out", "miscellaneous"] := by
  refine ⟨?_, ?_, ?_, ?_, rfl, rfl⟩
  · intro p hp
    simp only [calculateProgress, List.mem_map] at hp
    obtain ⟨alloc, _, rfl⟩ := hp
    constructor
    · intro hcat
      simp only at hcat
      simp [hcat, calculateTotalExpenses]
    · intro hcat
      simp only at hcat
      have hne_savings : alloc.category ≠ .savings := by
        rcases hcat with h | h | h <;> simp [h]
      have hne_needs : alloc.category ≠ .needs := by
        rcases hcat with h | h | h <;> simp [h]
      have hne_wants : alloc.category ≠ .wants := by
        rcases hcat with h | h | h <;> simp [h]
      simp only [hne_savings, if_neg]
      simpa [actualsFromExpenses] using
        actualsFromExpenses_apply_ne expenses (fun _ => 0) alloc.category
          hne_needs hne_wants
  · intro c h1 h2
    simp [mapExpenseToGoalCategory, List.contains, h1, h2]
  · intro c hc
    fin_cases hc <;> rfl
  · intro c hc
    fin_cases hc <;> rfl

/-- Witness for C3: an unmapped category id falls through to wants. -/
theorem calculateProgress_attribution_witness :
    mapExpenseToGoalCategory ("fuel") = .wants :=
  (calculateProgress_attribution [] 0 [] []).2.1 ("fuel")
    (by decide) (by decide)

/-- C1: for a needs or wants allocation the status is on_track when the
actual amount is at most the target and behind otherwise, overridden to
ahead exactly when the actual amount is strictly below 0.8 times the
target; in particular total income 200000, a needs target of 50 percent
and needs spending 90000 give target amount 100000, actual percentage 45
and status on_track, because 90000 is not strictly below 80000. -/
theorem calculateProgress_spendDown_status
    (allocations : List GoalAllocation) (totalIncome : ℚ)
    (expenses : List Expense) (income : List Income) (p : GoalProgress)
    (hp : p ∈ calculateProgress allocations totalIncome expenses income)
    (hcat : p.category = .needs ∨ p.category = .wants) :
    p.status =
      (if p.actualAmount < p.targetAmount * 0.8 then .ahead
       else if p.actualAmount ≤ p.targetAmount then .on_track
       else .behind) ∧
    (p.status = .ahead ↔ p.actualAmount < p.targetAmount * 0.8) ∧
    calculateProgress
      [⟨.needs, 50, "#3B82F6", "Home", "Needs",
        "Essential expenses (rent, utilities, groceries)"⟩]
      200000 [⟨"groceries", 90000, ⟨2025, 0⟩⟩] [] =
      [⟨.needs, 50, 45, 100000, 90000, -10000, .on_track⟩] := by
  have key : p.status =
      (if p.actualAmount < p.targetAmount * 0.8 then GoalStatus.ahead
       else if p.actualAmount ≤ p.targetAmount then .on_track
       else .behind) := by
    simp only [calculateProgress, List.mem_map] at hp
    obtain ⟨alloc, _, rfl⟩ := hp
    simp only at hcat
    simp only [if_pos hcat]
  refine ⟨key, ?_, ?_⟩
  · rw [key]
    by_cases h : p.actualAmount < p.targetAmount * 0.8
    · simp [h]
    · by_cases h2 : p.actualAmount ≤ p.targetAmount <;> simp [h, h2]
  · have hmap : mapExpenseToGoalCategory ("groceries") = .needs := rfl
    simp [calculateProgress, actualsFromExpenses, hmap]
    norm_num

/-- Witness for C1: the status characterisation applied to the single
progress row of the concrete boundary scenario. -/
theorem calculateProgress_spendDown_status_witness :
    ((⟨.needs, 50, 45, 100000, 90000, -10000, .on_track⟩ : GoalProgress).status
        = .ahead) ↔
      ((⟨.needs, 50, 45, 100000, 90000, -10000,
          .on_track⟩ : GoalProgress).actualAmount <
        (⟨.needs, 50, 45, 100000, 90000, -10000,
          .on_track⟩ : GoalProgress).targetAmount * 0.8) := by
  have hmap : mapExpenseToGoalCategory ("groceries") = .needs := rfl
  have hmem : (⟨.needs, 50, 45, 100000, 90000, -10000, .on_track⟩ :
      GoalProgress) ∈ calculateProgress
        [⟨.needs, 50, "#3B82F6", "Home", "Needs",
          "Essential expenses (rent, utilities, groceries)"⟩]
        200000 [⟨"groceries", 90000, ⟨2025, 0⟩⟩] [] := by
    have : calculateProgress
        [⟨.needs, 50, "#3B82F6", "Home", "Needs",
          "Essential expenses (rent, utilities, groceries)"⟩]
        200000 [⟨"groceries", 90000, ⟨2025, 0⟩⟩] [] =
        [⟨.needs, 50, 45, 100000, 90000, -10000, .on_track⟩] := by
      simp [calculateProgress, actualsFromExpenses, hmap]
      norm_num
    rw [this]
    exact List.mem_singleton_self _
  exact (calculateProgress_spendDown_status _ _ _ _ _ hmem (Or.inl rfl)).2.1

/-- Month arithmetic respects the linear month count. -/
theorem monthIndex_addMonths (d : MonthDate) (k : Int) :
    monthIndex (addMonths d k) = monthIndex d + k := by
  obtain ⟨y, m⟩ := d
  obtain ⟨mv, hm⟩ := m
  show (y * 12 + (mv : Int) + k) / 12 * 12 +
      (((y * 12 + (mv : Int) + k) % 12).toNat : Int) =
    y * 12 + (mv : Int) + k
  omega

/-- Adding zero months is the identity. -/
theorem addMonths_zero (d : MonthDate) : addMonths d 0 = d := by
  obtain ⟨y, m⟩ := d
  obtain ⟨mv, hm⟩ := m
  have hy : (y * 12 + ((⟨mv, hm⟩ : Fin 12) : Int) + 0) / 12 = y := by
    show (y * 12 + (mv : Int) + 0) / 12 = y
    omega
  have hmth : ((y * 12 + ((⟨mv, hm⟩ : Fin 12) : Int) + 0) % 12).toNat = mv := by
    show ((y * 12 + (mv : Int) + 0) % 12).toNat = mv
    omega
  simp only [addMonths]
  congr 1
  exact Fin.ext hmth

/-- C7 (amended): with the ambient clock read modelled as an explicit
reference instant, every aggregation function is deterministic: equal
record lists and an equal instant give equal results.  (In the source
the instant is produced by new Date() inside calculateIncomeVsExpenses
and calculateMoMChange rather than injected by the caller; see the
companion counterexample.) -/
theorem aggregation_deterministic_given_now
    (now : MonthDate) (income1 income2 : List Income)
    (expenses1 expenses2 : List Expense)
    (hi : income1 = income2) (he : expenses1 = expenses2) :
    calculateIncomeVsExpenses now income1 expenses1 =
      calculateIncomeVsExpenses now income2 expenses2 ∧
    calculateMoMChange now expenses1 = calculateMoMChange now expenses2 ∧
    calculateCategoryBreakdown expenses1 = calculateCategoryBreakdown expenses2 ∧
    calculateMonthlyTotals expenses1 = calculateMonthlyTotals expenses2 ∧
    calculateTotalExpenses expenses1 = calculateTotalExpenses expenses2 ∧
    calculateTotalIncome income1 = calculateTotalIncome income2 := by
  subst hi; subst he
  exact ⟨rfl, rfl, rfl, rfl, rfl, rfl⟩

/-- Witness for the amended C7 at concrete inputs. -/
theorem aggregation_deterministic_given_now_witness :
    calculateMoMChange ⟨2025, 0⟩ [⟨"rent", 100, ⟨2025, 0⟩⟩] =
      calculateMoMChange ⟨2025, 0⟩ [⟨"rent", 100, ⟨2025, 0⟩⟩] :=
  (aggregation_deterministic_given_now ⟨2025, 0⟩ [] []
    [⟨"rent", 100, ⟨2025, 0⟩⟩] [⟨"rent", 100, ⟨2025, 0⟩⟩] rfl rfl).2.1

/-- Counterexample for C7 as stated: the source reads the clock inside
the aggregation functions (new Date()), so two calls with equal
record-list arguments made at different instants return different
results; here the same single-expense list gives 100 at one instant and
-100 one month later. -/
theorem calculateMoMChange_ambient_clock_counterexample :
    calculateMoMChange ⟨2024, 0⟩ [⟨"rent", 100, ⟨2024, 0⟩⟩] = 100 ∧
    calculateMoMChange ⟨2024, 1⟩ [⟨"rent", 100, ⟨2024, 0⟩⟩] = -100 ∧
    calculateMoMChange ⟨2024, 0⟩ [⟨"rent", 100, ⟨2024, 0⟩⟩] ≠
      calculateMoMChange ⟨2024, 1⟩ [⟨"rent", 100, ⟨2024, 0⟩⟩] := by
  have h1 : addMonths ⟨2024, 0⟩ (-1) = (⟨2023, 11⟩ : MonthDate) := by decide
  have h2 : addMonths ⟨2024, 1⟩ (-1) = (⟨2024, 0⟩ : MonthDate) := by decide
  have e1 : calculateMoMChange ⟨2024, 0⟩ [⟨"rent", 100, ⟨2024, 0⟩⟩] = 100 := by
    simp [calculateMoMChange, h1, calculateTotalExpenses,
      calculatePercentageChange]
  have e2 : calculateMoMChange ⟨2024, 1⟩ [⟨"rent", 100, ⟨2024, 0⟩⟩] = -100 := by
    simp [calculateMoMChange, h2, calculateTotalExpenses,
      calculatePercentageChange]
  refine ⟨e1, e2, ?_⟩
  rw [e1, e2]
  norm_num

/-- C6: calculateIncomeVsExpenses always returns exactly 6 rows, the row
at position j describing the calendar month j - 5 months after the
reference month (so the window is the 6 consecutive months ending at the
current month, in chronological order); each row carries the per-month
income and expense sums (hence 0 for months with no matching records)
and a savings rate of 0 whenever that month has income 0. -/
theorem calculateIncomeVsExpenses_window
    (now : MonthDate) (income : List Income) (expenses : List Expense) :
    (calculateIncomeVsExpenses now income expenses).length = 6 ∧
    (∀ j : Nat, j < 6 →
      (calculateIncomeVsExpenses now income expenses).getD j ⟨"", 0, 0, 0, 0⟩ =
        ivEntry income expenses (addMonths now ((j : Int) - 5))) ∧
    (∀ k : MonthDate,
      (ivEntry income expenses k).period = formatMonthYear k ∧
      (ivEntry income expenses k).income =
        ((income.filter (fun r => r.date = k)).map Income.amount).sum ∧
      (ivEntry income expenses k).expenses =
        ((expenses.filter (fun e => e.date = k)).map Expense.amount).sum ∧
      (ivEntry income expenses k).net =
        (ivEntry income expenses k).income - (ivEntry income expenses k).expenses ∧
      (income.filter (fun r => r.date = k) = [] →
        (ivEntry income expenses k).income = 0) ∧
      (expenses.filter (fun e => e.date = k) = [] →
        (ivEntry income expenses k).expenses = 0) ∧
      ((ivEntry income expenses k).income = 0 →
        (ivEntry income expenses k).savingsRate = 0)) ∧
    (∀ j : Nat, monthIndex (addMonths now ((j : Int) - 5)) =
      monthIndex now + (j : Int) - 5) ∧
    addMonths now ((5 : Int) - 5) = now := by
  refine ⟨?_, ?_, ?_, ?_, ?_⟩
  · simp only [calculateIncomeVsExpenses, List.length_map, List.length_range]
  · intro j hj
    simp only [calculateIncomeVsExpenses, List.getD_eq_getElem?_getD,
      List.getElem?_map, List.getElem?_range hj]
    rfl
  · intro k
    have hInc : (ivEntry income expenses k).income =
        ((income.filter (fun r => r.date = k)).map Income.amount).sum := by
      simpa [ivEntry] using
        foldl_add_map (fun r => r.amount) (income.filter (fun r => r.date = k)) 0
    have hExp : (ivEntry income expenses k).expenses =
        ((expenses.filter (fun e => e.date = k)).map Expense.amount).sum := by
      simpa [ivEntry] using
        foldl_add_map (fun e => e.amount) (expenses.filter (fun e => e.date = k)) 0
    refine ⟨rfl, hInc, hExp, rfl, ?_, ?_, ?_⟩
    · intro h0; rw [hInc, h0]; rfl
    · intro h0; rw [hExp, h0]; rfl
    · intro h0
      have hpos : ¬ ((income.filter (fun r => r.date = k)).foldl
          (fun s r => s + r.amount) 0 > 0) := by
        have : (income.filter (fun r => r.date = k)).foldl
            (fun s r => s + r.amount) 0 = 0 := by
          simpa [ivEntry] using h0
        rw [this]
        norm_num
      simp [ivEntry, hpos]
  · intro j
    rw [monthIndex_addMonths]
    ring
  · have h : ((5 : Int) - 5) = 0 := by norm_num
    rw [h]
    exact addMonths_zero now

/-- Witness for C6: the window characterisation at row 3 of a concrete
call. -/
theorem calculateIncomeVsExpenses_window_witness :
    (calculateIncomeVsExpenses ⟨2025, 3⟩ [] []).getD 3 ⟨"", 0, 0, 0, 0⟩ =
      ivEntry [] [] (addMonths ⟨2025, 3⟩ ((3 : Int) - 5)) :=
  (calculateIncomeVsExpenses_window ⟨2025, 3⟩ [] []).2.1 3 (by norm_num)

/-- Lookup after one upsert: the touched key accumulates, others are
unchanged. -/
theorem lookupGroup_upsertGroup {κ : Type} [DecidableEq κ] (k' k : κ) (a : ℚ)
    (m : List (κ × ℚ × Nat)) :
    lookupGroup k (upsertGroup k' a m) =
      if k' = k then
        some ((lookupGroup k m).elim (a, 1) (fun v => (v.1 + a, v.2 + 1)))
      else lookupGroup k m := by
  induction m with
  | nil =>
      by_cases h : k' = k <;> simp [upsertGroup, lookupGroup, h]
  | cons e rest ih =>
      by_cases he : e.1 = k'
      · by_cases hk : e.1 = k
        · have hk' : k' = k := by rw [← he, hk]
          simp [upsertGroup, lookupGroup, he, hk, hk']
        · have hk' : ¬ k' = k := fun h => hk (he.trans h)
          simp [upsertGroup, lookupGroup, he, hk, hk']
      · by_cases hk : e.1 = k
        · have hk' : ¬ k' = k := fun h => he (hk.trans h.symm)
          have hk'' : ¬ k = k' := fun h => hk' h.symm
          simp [upsertGroup, lookupGroup, he, hk, hk', hk'']
        · simp [upsertGroup, lookupGroup, he, hk, ih]

/-- Lookup over the whole grouping fold: a key collects the sum and the
count of the matching records, on top of whatever the accumulator
already held. -/
theorem lookupGroup_foldl_upsert {κ : Type} [DecidableEq κ]
    (key : Expense → κ) (k : κ) (es : List Expense) :
    ∀ m : List (κ × ℚ × Nat),
      lookupGroup k (es.foldl (fun m e => upsertGroup (key e) e.amount m) m) =
        if es.filter (fun e => key e = k) = [] then lookupGroup k m
        else
          some ((lookupGroup k m).elim
            (((es.filter (fun e => key e = k)).map Expense.amount).sum,
              (es.filter (fun e => key e = k)).length)
            (fun v =>
              (v.1 + ((es.filter (fun e => key e = k)).map Expense.amount).sum,
                v.2 + (es.filter (fun e => key e = k)).length))) := by
  induction es with
  | nil => intro m; simp
  | cons e es ih =>
      intro m
      rw [List.foldl_cons, ih]
      by_cases he : key e = k
      · rw [lookupGroup_upsertGroup, if_pos he]
        rcases hm : lookupGroup k m with _ | v
        · by_cases hP : es.filter (fun e => key e = k) = [] <;>
            simp [he, hm, hP, List.filter_cons, Nat.add_comm, add_comm]
        · by_cases hP : es.filter (fun e => key e = k) = []
          · simp [he, hm, hP, List.filter_cons]
          · simp [he, hm, hP, List.filter_cons]
            constructor
            · ring
            · omega
      · rw [lookupGroup_upsertGroup, if_neg (fun h => he h)]
        simp [he, List.filter_cons]

/-- Grouping fold started on the empty accumulator (the source shape):
the lookup of a key is exactly the sum and count of its records, or
nothing when no record has that key. -/
theorem lookupGroup_groupExpensesBy {κ : Type} [DecidableEq κ]
    (key : Expense → κ) (k : κ) (es : List Expense) :
    lookupGroup k (groupExpensesBy key es) =
      if es.filter (fun e => key e = k) = [] then none
      else some (((es.filter (fun e => key e = k)).map Expense.amount).sum,
        (es.filter (fun e => key e = k)).length) := by
  rw [groupExpensesBy, lookupGroup_foldl_upsert]
  by_cases hP : es.filter (fun e => key e = k) = [] <;>
    simp [hP, lookupGroup]

/-- A failed lookup means the key is absent. -/
theorem lookupGroup_eq_none_iff {κ : Type} [DecidableEq κ] (k : κ)
    (m : List (κ × ℚ × Nat)) :
    lookupGroup k m = none ↔ k ∉ m.map Prod.fst := by
  induction m with
  | nil => simp [lookupGroup]
  | cons e rest ih =>
      simp only [lookupGroup, List.map_cons, List.mem_cons]
      by_cases he : e.1 = k
      · simp [he]
      · have hke : ¬ k = e.1 := fun h => he h.symm
        simp [he, ih, hke]

/-- Upsert preserves distinctness of the grouping keys. -/
theorem nodup_keys_upsertGroup {κ : Type} [DecidableEq κ] (k : κ) (a : ℚ)
    (m : List (κ × ℚ × Nat)) (hm : (m.map Prod.fst).Nodup) :
    ((upsertGroup k a m).map Prod.fst).Nodup := by
  induction m with
  | nil => simp [upsertGroup]
  | cons e rest ih =>
      by_cases he : e.1 = k
      · simpa [upsertGroup, he] using hm
      · simp only [List.map_cons, List.nodup_cons] at hm
        have hmem : e.1 ∉ (upsertGroup k a rest).map Prod.fst := by
          intro hc
          by_cases hr : lookupGroup e.1 (upsertGroup k a rest) = none
          · exact ((lookupGroup_eq_none_iff _ _).1 hr) hc
          · rw [lookupGroup_upsertGroup] at hr
            rw [if_neg (fun h => he h.symm)] at hr
            exact hm.1 (by
              by_contra hmm
              exact hr ((lookupGroup_eq_none_iff _ _).2 hmm))
        simp only [upsertGroup, if_neg he, List.map_cons, List.nodup_cons]
        exact ⟨hmem, ih hm.2⟩

/-- The grouping fold keeps its keys distinct. -/
theorem nodup_keys_foldl_upsert {κ : Type} [DecidableEq κ]
    (key : Expense → κ) (es : List Expense) :
    ∀ m : List (κ × ℚ × Nat), (m.map Prod.fst).Nodup →
      (((es.foldl (fun m e => upsertGroup (key e) e.amount m) m)).map
        Prod.fst).Nodup := by
  induction es with
  | nil => intro m hm; exact hm
  | cons e es ih =>
      intro m hm
      rw [List.foldl_cons]
      exact ih _ (nodup_keys_upsertGroup _ _ _ hm)

/-- The keys of the source grouping are distinct. -/
theorem nodup_keys_groupExpensesBy {κ : Type} [DecidableEq κ]
    (key : Expense → κ) (es : List Expense) :
    ((groupExpensesBy key es).map Prod.fst).Nodup :=
  nodup_keys_foldl_upsert key es [] (by simp)

/-- With distinct keys, membership determines the lookup. -/
theorem lookupGroup_eq_some_of_mem {κ : Type} [DecidableEq κ]
    (m : List (κ × ℚ × Nat)) (hm : (m.map Prod.fst).Nodup)
    (g : κ × ℚ × Nat) (hg : g ∈ m) : lookupGroup g.1 m = some g.2 := by
  induction m with
  | nil => cases hg
  | cons e rest ih =>
      rcases List.mem_cons.1 hg with h | h
      · subst h; simp [lookupGroup]
      · simp only [List.map_cons, List.nodup_cons] at hm
        have hne : ¬ e.1 = g.1 := by
          intro hc
          exact hm.1 (hc ▸ List.mem_map_of_mem Prod.fst h)
        simp only [lookupGroup, if_neg hne]
        exact ih hm.2 h

/-- A successful lookup produces a member of the association list. -/
theorem mem_of_lookupGroup_eq_some {κ : Type} [DecidableEq κ]
    (m : List (κ × ℚ × Nat)) (k : κ) (v : ℚ × Nat)
    (h : lookupGroup k m = some v) : (k, v) ∈ m := by
  induction m with
  | nil => cases h
  | cons e rest ih =>
      by_cases he : e.1 = k
      · simp only [lookupGroup, if_pos he] at h
        have : (k, v) = e := by
          obtain ⟨e1, e2⟩ := e
          simp only at he
          cases h
          cases he
          rfl
        exact this ▸ List.mem_cons_self e rest
      · simp only [lookupGroup, if_neg he] at h
        exact List.mem_cons_of_mem e (ih h)

/-- One upsert adds its amount to the total held by the list. -/
theorem total_upsertGroup {κ : Type} [DecidableEq κ] (k : κ) (a : ℚ)
    (m : List (κ × ℚ × Nat)) :
    ((upsertGroup k a m).map (fun g => g.2.1)).sum =
      (m.map (fun g => g.2.1)).sum + a := by
  induction m with
  | nil => simp [upsertGroup]
  | cons e rest ih =>
      by_cases he : e.1 = k
      · simp [upsertGroup, he]
        ring
      · simp [upsertGroup, he, ih]
        ring

/-- The grouping fold preserves the running total of all amounts. -/
theorem total_foldl_upsert {κ : Type} [DecidableEq κ]
    (key : Expense → κ) (es : List Expense) :
    ∀ m : List (κ × ℚ × Nat),
      (((es.foldl (fun m e => upsertGroup (key e) e.amount m) m)).map
          (fun g => g.2.1)).sum =
        (m.map (fun g => g.2.1)).sum + (es.map Expense.amount).sum := by
  induction es with
  | nil => intro m; simp
  | cons e es ih =>
      intro m
      rw [List.foldl_cons, ih, total_upsertGroup]
      simp
      ring

/-- The grouped amounts sum to the expense total. -/
theorem total_groupExpensesBy {κ : Type} [DecidableEq κ]
    (key : Expense → κ) (es : List Expense) :
    ((groupExpensesBy key es).map (fun g => g.2.1)).sum =
      (es.map Expense.amount).sum := by
  rw [groupExpensesBy, total_foldl_upsert]
  simp

/-- C4: calculateCategoryBreakdown returns the empty list when the
expense total is 0; otherwise it returns exactly one row per distinct
category carrying that category's summed amount and record count, with
percentage = amount / total * 100 (so the percentages sum to 100), and
the rows are sorted by amount descending. -/
theorem calculateCategoryBreakdown_spec (expenses : List Expense) :
    (calculateTotalExpenses expenses = 0 →
      calculateCategoryBreakdown expenses = []) ∧
    (calculateTotalExpenses expenses ≠ 0 →
      (∀ b ∈ calculateCategoryBreakdown expenses,
        (∃ e ∈ expenses, e.category = b.category) ∧
        b.amount = ((expenses.filter
          (fun e => e.category = b.category)).map Expense.amount).sum ∧
        b.count = (expenses.filter
          (fun e => e.category = b.category)).length ∧
        b.percentage = b.amount / calculateTotalExpenses expenses * 100) ∧
      (∀ c : String, (∃ e ∈ expenses, e.category = c) →
        ∃ b ∈ calculateCategoryBreakdown expenses, b.category = c) ∧
      ((calculateCategoryBreakdown expenses).map
        CategoryBreakdown.category).Nodup ∧
      ((calculateCategoryBreakdown expenses).map
        CategoryBreakdown.percentage).sum = 100 ∧
      (calculateCategoryBreakdown expenses).Pairwise
        (fun a b => b.amount ≤ a.amount)) := by
  constructor
  · intro h0
    simp [calculateCategoryBreakdown, h0]
  · intro hne
    have hunf : calculateCategoryBreakdown expenses =
        ((groupExpensesBy (fun e => e.category) expenses).map
          (fun g => ⟨g.1, g.2.1,
            g.2.1 / calculateTotalExpenses expenses * 100, g.2.2⟩)).mergeSort
          (fun a b => b.amount ≤ a.amount) := by
      simp only [calculateCategoryBreakdown, if_neg hne]
    have hperm := List.mergeSort_perm
      ((groupExpensesBy (fun e => e.category) expenses).map
        (fun g => (⟨g.1, g.2.1,
          g.2.1 / calculateTotalExpenses expenses * 100, g.2.2⟩ :
            CategoryBreakdown)))
      (fun a b => b.amount ≤ a.amount)
    refine ⟨?_, ?_, ?_, ?_, ?_⟩
    · intro b hb
      rw [hunf] at hb
      obtain ⟨g, hg, rfl⟩ := List.mem_map.1 (hperm.mem_iff.1 hb)
      have hlook := lookupGroup_eq_some_of_mem _
        (nodup_keys_groupExpensesBy (fun e => e.category) expenses) g hg
      rw [lookupGroup_groupExpensesBy] at hlook
      by_cases hP : expenses.filter (fun e => e.category = g.1) = []
      · rw [if_pos hP] at hlook; cases hlook
      · rw [if_neg hP] at hlook
        have hg2 : g.2 = (((expenses.filter
            (fun e => e.category = g.1)).map Expense.amount).sum,
            (expenses.filter (fun e => e.category = g.1)).length) :=
          (Option.some.inj hlook).symm
        refine ⟨?_, ?_, ?_, rfl⟩
        · obtain ⟨e, he⟩ := List.exists_mem_of_ne_nil _ hP
          exact ⟨e, (List.mem_filter.1 he).1, by
            simpa using (List.mem_filter.1 he).2⟩
        · show g.2.1 = _
          rw [hg2]
        · show g.2.2 = _
          rw [hg2]
    · intro c ⟨e, he, hec⟩
      have hP : expenses.filter (fun e => e.category = c) ≠ [] :=
        List.ne_nil_of_mem (List.mem_filter.2 ⟨he, by simpa using hec⟩)
      have hlook : lookupGroup c
          (groupExpensesBy (fun e => e.category) expenses) =
          some (((expenses.filter (fun e => e.category = c)).map
            Expense.amount).sum,
            (expenses.filter (fun e => e.category = c)).length) := by
        rw [lookupGroup_groupExpensesBy, if_neg hP]
      have hmem := mem_of_lookupGroup_eq_some _ _ _ hlook
      refine ⟨⟨c,
        ((expenses.filter (fun e => e.category = c)).map Expense.amount).sum,
        ((expenses.filter (fun e => e.category = c)).map Expense.amount).sum /
          calculateTotalExpenses expenses * 100,
        (expenses.filter (fun e => e.category = c)).length⟩, ?_, rfl⟩
      rw [hunf]
      exact hperm.mem_iff.2 (List.mem_map_of_mem _ hmem)
    · rw [hunf]
      have hmapped : (((groupExpensesBy (fun e => e.category) expenses).map
          (fun g => (⟨g.1, g.2.1,
            g.2.1 / calculateTotalExpenses expenses * 100, g.2.2⟩ :
              CategoryBreakdown))).map CategoryBreakdown.category) =
          (groupExpensesBy (fun e => e.category) expenses).map Prod.fst := by
        rw [List.map_map]
        exact List.map_congr_left (fun g _ => rfl)
      have hnd : (((groupExpensesBy (fun e => e.category) expenses).map
          (fun g => (⟨g.1, g.2.1,
            g.2.1 / calculateTotalExpenses expenses * 100, g.2.2⟩ :
              CategoryBreakdown))).map CategoryBreakdown.category).Nodup := by
        rw [hmapped]
        exact nodup_keys_groupExpensesBy (fun e => e.category) expenses
      exact hnd.perm (hperm.map CategoryBreakdown.category).symm
    · rw [hunf]
      rw [(hperm.map CategoryBreakdown.percentage).sum_eq]
      rw [List.map_map]
      have hcongr : ((groupExpensesBy (fun e => e.category) expenses).map
          (CategoryBreakdown.percentage ∘ fun g => (⟨g.1, g.2.1,
            g.2.1 / calculateTotalExpenses expenses * 100, g.2.2⟩ :
              CategoryBreakdown))) =
          ((groupExpensesBy (fun e => e.category) expenses).map
            (fun g => g.2.1 * (100 / calculateTotalExpenses expenses))) :=
        List.map_congr_left (fun g _ => by
          show g.2.1 / calculateTotalExpenses expenses * 100 = _
          ring)
      rw [hcongr, List.sum_map_mul_right, total_groupExpensesBy,
        ← calculateTotalExpenses_eq_sum]
      field_simp
    · rw [hunf]
      have hsorted := @List.sorted_mergeSort CategoryBreakdown
        (fun a b : CategoryBreakdown => decide (b.amount ≤ a.amount))
        (fun a b c h1 h2 => by
          simp only [decide_eq_true_eq] at h1 h2 ⊢
          exact le_trans h2 h1)
        (fun a b => by
          rcases le_total a.amount b.amount with h | h <;> simp [h])
        ((groupExpensesBy (fun e => e.category) expenses).map
          (fun g => (⟨g.1, g.2.1,
            g.2.1 / calculateTotalExpenses expenses * 100, g.2.2⟩ :
              CategoryBreakdown)))
      exact hsorted.imp (fun h => by simpa using h)

/-- Witness for C4 at the three-expense scenario of the specification:
rent 10000, groceries 20000, rent 5000 (total 35000). -/
theorem calculateCategoryBreakdown_spec_witness :
    ((calculateCategoryBreakdown
      [⟨"rent", 10000, ⟨2025, 0⟩⟩, ⟨"groceries", 20000, ⟨2025, 0⟩⟩,
        ⟨"rent", 5000, ⟨2025, 0⟩⟩]).map CategoryBreakdown.percentage).sum =
        100 ∧
    (calculateCategoryBreakdown
      [⟨"rent", 10000, ⟨2025, 0⟩⟩, ⟨"groceries", 20000, ⟨2025, 0⟩⟩,
        ⟨"rent", 5000, ⟨2025, 0⟩⟩]).Pairwise
      (fun a b => b.amount ≤ a.amount) := by
  have hne : calculateTotalExpenses
      [⟨"rent", 10000, ⟨2025, 0⟩⟩, ⟨"groceries", 20000, ⟨2025, 0⟩⟩,
        ⟨"rent", 5000, ⟨2025, 0⟩⟩] ≠ 0 := by
    norm_num [calculateTotalExpenses]
  have h := (calculateCategoryBreakdown_spec
    [⟨"rent", 10000, ⟨2025, 0⟩⟩, ⟨"groceries", 20000, ⟨2025, 0⟩⟩,
      ⟨"rent", 5000, ⟨2025, 0⟩⟩]).2 hne
  exact ⟨h.2.2.2.1, h.2.2.2.2⟩

/-- The twelve month labels are pairwise distinct. -/
theorem monthName_injective : Function.Injective monthName := by
  intro a b h
  revert h
  revert a b
  decide

/-- C8: calculateMonthlyTotals groups all records by calendar month (one
row per occupied month, carrying that month's sum and count and the
formatted label of its month index) and sorts the rows chronologically
ascending by year and then by month position within the year; the final
conjunct ties each formatted label back to its numeric month index, so
the order is positional, not alphabetical. -/
theorem calculateMonthlyTotals_spec (expenses : List Expense) :
    (∀ t ∈ calculateMonthlyTotals expenses, ∃ k : Int × Fin 12,
      t.year = k.1 ∧ t.month = monthName k.2 ∧
      t.total = ((expenses.filter
        (fun e => (e.date.year, e.date.month) = k)).map Expense.amount).sum ∧
      t.count = (expenses.filter
        (fun e => (e.date.year, e.date.month) = k)).length ∧
      (∃ e ∈ expenses, (e.date.year, e.date.month) = k)) ∧
    (∀ e ∈ expenses, ∃ t ∈ calculateMonthlyTotals expenses,
      t.year = e.date.year ∧ t.month = monthName e.date.month) ∧
    ((calculateMonthlyTotals expenses).map (fun t => (t.year, t.month))).Nodup ∧
    (calculateMonthlyTotals expenses).Pairwise (fun a b =>
      a.year < b.year ∨ (a.year = b.year ∧
        MONTHS_SHORT.indexOf a.month ≤ MONTHS_SHORT.indexOf b.month)) ∧
    (∀ m : Fin 12, MONTHS_SHORT.indexOf (monthName m) = m.val) := by
  have hperm := List.mergeSort_perm
    ((groupExpensesBy (fun e => (e.date.year, e.date.month)) expenses).map
      (fun g => (⟨monthName g.1.2, g.1.1, g.2.1, g.2.2⟩ : MonthlyTotal)))
    monthlyTotalLE
  refine ⟨?_, ?_, ?_, ?_, by decide⟩
  · intro t ht
    rw [calculateMonthlyTotals] at ht
    obtain ⟨g, hg, rfl⟩ := List.mem_map.1 (hperm.mem_iff.1 ht)
    have hlook := lookupGroup_eq_some_of_mem _
      (nodup_keys_groupExpensesBy
        (fun e => (e.date.year, e.date.month)) expenses) g hg
    rw [lookupGroup_groupExpensesBy] at hlook
    by_cases hP : expenses.filter
        (fun e => (e.date.year, e.date.month) = g.1) = []
    · rw [if_pos hP] at hlook; cases hlook
    · rw [if_neg hP] at hlook
      have hg2 : g.2 = (((expenses.filter
          (fun e => (e.date.year, e.date.month) = g.1)).map
            Expense.amount).sum,
          (expenses.filter
            (fun e => (e.date.year, e.date.month) = g.1)).length) :=
        (Option.some.inj hlook).symm
      refine ⟨g.1, rfl, rfl, ?_, ?_, ?_⟩
      · show g.2.1 = _
        rw [hg2]
      · show g.2.2 = _
        rw [hg2]
      · obtain ⟨e, he⟩ := List.exists_mem_of_ne_nil _ hP
        exact ⟨e, (List.mem_filter.1 he).1, by
          simpa using (List.mem_filter.1 he).2⟩
  · intro e he
    have hP : expenses.filter
        (fun x => (x.date.year, x.date.month) =
          (e.date.year, e.date.month)) ≠ [] :=
      List.ne_nil_of_mem (List.mem_filter.2 ⟨he, by simp⟩)
    have hlook : lookupGroup (e.date.year, e.date.month)
        (groupExpensesBy (fun x => (x.date.year, x.date.month)) expenses) =
        some (((expenses.filter (fun x => (x.date.year, x.date.month) =
          (e.date.year, e.date.month))).map Expense.amount).sum,
          (expenses.filter (fun x => (x.date.year, x.date.month) =
            (e.date.year, e.date.month))).length) := by
      rw [lookupGroup_groupExpensesBy, if_neg hP]
    have hmem := mem_of_lookupGroup_eq_some _ _ _ hlook
    refine ⟨⟨monthName e.date.month, e.date.year,
      ((expenses.filter (fun x => (x.date.year, x.date.month) =
        (e.date.year, e.date.month))).map Expense.amount).sum,
      (expenses.filter (fun x => (x.date.year, x.date.month) =
        (e.date.year, e.date.month))).length⟩, ?_, rfl, rfl⟩
    rw [calculateMonthlyTotals]
    exact hperm.mem_iff.2 (List.mem_map_of_mem _ hmem)
  · rw [calculateMonthlyTotals]
    have hmapped : (((groupExpensesBy
        (fun e => (e.date.year, e.date.month)) expenses).map
        (fun g => (⟨monthName g.1.2, g.1.1, g.2.1, g.2.2⟩ :
          MonthlyTotal))).map (fun t => (t.year, t.month))) =
        ((groupExpensesBy
          (fun e => (e.date.year, e.date.month)) expenses).map
            Prod.fst).map (fun k => (k.1, monthName k.2)) := by
      rw [List.map_map, List.map_map]
      exact List.map_congr_left (fun g _ => rfl)
    have hinj : Function.Injective
        (fun k : Int × Fin 12 => (k.1, monthName k.2)) := by
      intro ⟨y1, m1⟩ ⟨y2, m2⟩ h
      simp only [Prod.mk.injEq] at h
      exact Prod.ext h.1 (monthName_injective h.2)
    have hnd := ((nodup_keys_groupExpensesBy
      (fun e => (e.date.year, e.date.month)) expenses).map hinj)
    rw [← hmapped] at hnd
    exact hnd.perm ((hperm.map (fun t => (t.year, t.month))).symm)
  · rw [calculateMonthlyTotals]
    have hsorted := @List.sorted_mergeSort MonthlyTotal monthlyTotalLE
      (fun a b c h1 h2 => by
        simp only [monthlyTotalLE] at h1 h2 ⊢
        by_cases hab : a.year = b.year
        · rw [if_pos hab] at h1
          by_cases hbc : b.year = c.year
          · rw [if_pos hbc] at h2
            rw [if_pos (hab.trans hbc)]
            simp only [decide_eq_true_eq] at h1 h2 ⊢
            omega
          · rw [if_neg hbc] at h2
            rw [if_neg (fun h => hbc (hab.symm.trans h))]
            simp only [decide_eq_true_eq] at h1 h2 ⊢
            omega
        · rw [if_neg hab] at h1
          by_cases hbc : b.year = c.year
          · rw [if_pos hbc] at h2
            rw [if_neg (fun h => hab (h.trans hbc.symm))]
            simp only [decide_eq_true_eq] at h1 h2 ⊢
            omega
          · rw [if_neg hbc] at h2
            simp only [decide_eq_true_eq] at h1 h2
            have hac : ¬ a.year = c.year := by omega
            rw [if_neg hac]
            simp only [decide_eq_true_eq]
            omega)
      (fun a b => by
        simp only [monthlyTotalLE, Bool.or_eq_true]
        by_cases hab : a.year = b.year
        · rw [if_pos hab, if_pos hab.symm]
          simp only [decide_eq_true_eq]
          omega
        · rw [if_neg hab, if_neg (fun h => hab h.symm)]
          simp only [decide_eq_true_eq]
          omega)
      ((groupExpensesBy (fun e => (e.date.year, e.date.month)) expenses).map
        (fun g => (⟨monthName g.1.2, g.1.1, g.2.1, g.2.2⟩ : MonthlyTotal)))
    refine hsorted.imp ?_
    intro a b h
    by_cases hab : a.year = b.year
    · right
      refine ⟨hab, ?_⟩
      simpa [monthlyTotalLE, hab] using h
    · left
      have hle : a.year ≤ b.year := by
        simpa [monthlyTotalLE, hab] using h
      omega

/-- Witness for C8: the occupied month of a concrete one-record list
appears in the output with its year and formatted month label. -/
theorem calculateMonthlyTotals_spec_witness :
    ∃ t ∈ calculateMonthlyTotals [⟨"rent", 100, ⟨2024, 1⟩⟩],
      t.year = 2024 ∧ t.month = monthName 1 :=
  (calculateMonthlyTotals_spec [⟨"rent", 100, ⟨2024, 1⟩⟩]).2.1
    ⟨"rent", 100, ⟨2024, 1⟩⟩ (List.mem_singleton_self _)

/-- find? returns the unique element satisfying the predicate. -/
theorem find?_eq_some_of_unique {α : Type} (p : α → Bool) (l : List α)
    (x : α) (hx : x ∈ l) (hpx : p x = true)
    (huniq : ∀ y ∈ l, p y = true → y = x) : l.find? p = some x := by
  induction l with
  | nil => cases hx
  | cons a t ih =>
      by_cases hpa : p a = true
      · rw [List.find?_cons_of_pos _ hpa]
        rw [huniq a (List.mem_cons_self a t) hpa]
      · have hpa' : p a = false := by
          cases h : p a
          · rfl
          · exact absurd h hpa
        rw [List.find?_cons_of_neg _ (by simp [hpa'])]
        have hxt : x ∈ t := by
          rcases List.mem_cons.1 hx with h | h
          · exact absurd (h ▸ hpx) (by simp [hpa'])
          · exact h
        exact ih hxt (fun y hy hpy => huniq y (List.mem_cons_of_mem a hy) hpy)

/-- Every built-in category of the unified catalog is marked
non-custom. -/
theorem defaults_isCustom_false :
    ∀ u ∈ defaultCategoriesAsUnified, u.isCustom = false := by decide

/-- C9 (amended): under distinct category ids, the by-id lookup still
resolves a soft-deleted custom category to its UnifiedCategory (the
unified record carries no deleted flag, so the returned value is the
same as for the undeleted record); the active view excludes it, while a
non-deleted custom category and every built-in category appear in both
views. -/
theorem categoryResolution_soft_delete
    (customCategories : List CustomCategory) (c : CustomCategory)
    (hc : c ∈ customCategories)
    (hids : ((defaultCategoriesAsUnified ++
      customCategories.map customAsUnified).map UnifiedCategory.id).Nodup) :
    getCategoryById customCategories c.id = some (customAsUnified c) ∧
    (c.isDeleted = true →
      customAsUnified c ∉ allCategories customCategories) ∧
    (c.isDeleted = false →
      customAsUnified c ∈ allCategories customCategories) ∧
    customAsUnified c ∈ allCategoriesIncludingDeleted customCategories ∧
    (∀ d ∈ defaultCategoriesAsUnified,
      d ∈ allCategories customCategories ∧
      d ∈ allCategoriesIncludingDeleted customCategories) := by
  have hpermAll := List.mergeSort_perm
    (defaultCategoriesAsUnified ++ customCategories.map customAsUnified)
    (fun a b : UnifiedCategory => a.order ≤ b.order)
  have hpermAct := List.mergeSort_perm
    (defaultCategoriesAsUnified ++
      (activeCustomCategories customCategories).map customAsUnified)
    (fun a b : UnifiedCategory => a.order ≤ b.order)
  have hxmerged : customAsUnified c ∈
      defaultCategoriesAsUnified ++ customCategories.map customAsUnified :=
    List.mem_append_right _ (List.mem_map_of_mem _ hc)
  have hcustomIds : (customCategories.map CustomCategory.id).Nodup := by
    have h1 : ((customCategories.map customAsUnified).map
        UnifiedCategory.id).Nodup := by
      rw [List.map_append] at hids
      exact hids.of_append_right
    rw [List.map_map] at h1
    exact h1
  refine ⟨?_, ?_, ?_, ?_, ?_⟩
  · rw [getCategoryById, allCategoriesIncludingDeleted]
    apply find?_eq_some_of_unique _ _ (customAsUnified c)
    · exact hpermAll.mem_iff.2 hxmerged
    · simp [customAsUnified]
    · intro y hy hpy
      have hy' : y ∈ defaultCategoriesAsUnified ++
          customCategories.map customAsUnified := hpermAll.mem_iff.1 hy
      have hyid : y.id = (customAsUnified c).id := by
        simpa [customAsUnified] using hpy
      exact List.inj_on_of_nodup_map hids hy' hxmerged hyid
  · intro hdel hmem
    have hmem' := (List.mem_append.1 (hpermAct.mem_iff.1 hmem))
    rcases hmem' with h | h
    · have := defaults_isCustom_false _ h
      simp [customAsUnified] at this
    · obtain ⟨c', hc', heq⟩ := List.mem_map.1 h
      have hc'mem : c' ∈ customCategories :=
        (List.mem_filter.1 hc').1
      have hc'live : c'.isDeleted = false := by
        have := (List.mem_filter.1 hc').2
        simpa using this
      have hcid : c'.id = c.id := by
        have := congrArg UnifiedCategory.id heq
        simpa [customAsUnified] using this
      have hcc : c' = c :=
        List.inj_on_of_nodup_map hcustomIds hc'mem hc hcid
      rw [hcc] at hc'live
      rw [hc'live] at hdel
      cases hdel
  · intro hlive
    refine hpermAct.mem_iff.2 (List.mem_append_right _
      (List.mem_map_of_mem _ (List.mem_filter.2 ⟨hc, ?_⟩)))
    simp [hlive]
  · exact hpermAll.mem_iff.2 hxmerged
  · intro d hd
    exact ⟨hpermAct.mem_iff.2 (List.mem_append_left _ hd),
      hpermAll.mem_iff.2 (List.mem_append_left _ hd)⟩

/-- Witness for the amended C9: a concrete soft-deleted custom category
is excluded from the active view. -/
theorem categoryResolution_soft_delete_witness :
    customAsUnified
      ⟨"custom-1", "Coffee", "Cup", "#000000", .variable', 100, true⟩ ∉
      allCategories
        [⟨"custom-1", "Coffee", "Cup", "#000000", .variable', 100, true⟩] :=
  (categoryResolution_soft_delete
    [⟨"custom-1", "Coffee", "Cup", "#000000", .variable', 100, true⟩]
    ⟨"custom-1", "Coffee", "Cup", "#000000", .variable', 100, true⟩
    (List.mem_singleton_self _) (by decide)).2.1 rfl

/-- Counterexample for C9 as stated: resolving a soft-deleted custom
category by id returns a UnifiedCategory identical to the one returned
for the same record with the deleted flag cleared — the unified record
carries no deleted flag, so the deleted state is not reflected in the
returned value (it is reflected only in the active view). -/
theorem getCategoryById_no_deleted_flag_counterexample :
    (⟨"custom-1", "Coffee", "Cup", "#000000", .variable', 100, true⟩ :
      CustomCategory).isDeleted = true ∧
    (⟨"custom-1", "Coffee", "Cup", "#000000", .variable', 100, true⟩ :
        CustomCategory) ≠
      ⟨"custom-1", "Coffee", "Cup", "#000000", .variable', 100, false⟩ ∧
    getCategoryById
        [⟨"custom-1", "Coffee", "Cup", "#000000", .variable', 100, true⟩]
        ("custom-1") =
      getCategoryById
        [⟨"custom-1", "Coffee", "Cup", "#000000", .variable', 100, false⟩]
        ("custom-1") := by
  refine ⟨rfl, by simp, ?_⟩
  simp [getCategoryById, allCategoriesIncludingDeleted,
    defaultCategoriesAsUnified, CATEGORIES, customAsUnified, List.mergeSort]

end Priz
